import Mathlib

/-!
Users service: name validation, persistence, business and request layers

A shallow embedding of the Go packages `model`, `repository`, `service` and
`controller` of the users service, together with the parts of the libraries
they call (package `unicode`, `strings`, `strconv`, echo's `HTTPError`, the
field validator and the gorm handle), followed by theorems about them.

Conventions of the embedding:

* a Go `string` that holds valid UTF-8 is a `String`; `len` is the length of
  its UTF-8 encoding in bytes, `range` walks its runes (`String.data`);
* a Go `int` identifier is an `Int`; `time.Time` is an instant `Nat`, `0` being
  the zero time;
* a Go result pair `(value, error)` is a pair whose second component is an
  `Option`: `none` is the nil error;
* a `[]model.User` is an `Option (List User)`: `none` is the nil slice;
* code that reads or writes the store takes the state of the store and returns
  the new one.
-/

/-! ## Package unicode and package strings -/

namespace unicode

/-- Go `unicode.IsSpace`: the Latin-1 spaces tab, line feed, vertical tab, form
feed, carriage return, space, U+0085 and U+00A0, and beyond Latin-1 the code
points with the White_Space property. -/
def IsSpace (r : Char) : Bool :=
  let n := r.toNat
  n == 0x09 || n == 0x0A || n == 0x0B || n == 0x0C || n == 0x0D || n == 0x20 ||
  n == 0x85 || n == 0xA0 || n == 0x1680 || (0x2000 ≤ n && n ≤ 0x200A) ||
  n == 0x2028 || n == 0x2029 || n == 0x202F || n == 0x205F || n == 0x3000

end unicode

namespace utf8

/-- Go `utf8.RuneLen` on a valid rune: the number of bytes of its encoding. -/
def RuneLen (r : Char) : Nat :=
  if r.toNat < 0x80 then 1
  else if r.toNat < 0x800 then 2
  else if r.toNat < 0x10000 then 3
  else 4

end utf8

namespace strings

/-- Go builtin `len` on a string: the number of bytes. -/
def len (s : String) : Nat :=
  (s.data.map utf8.RuneLen).sum

/-- Go `strings.TrimSpace`: the string without its leading and trailing runes
that `unicode.IsSpace` accepts. -/
def TrimSpace (s : String) : String :=
  ⟨List.rdropWhile unicode.IsSpace (List.dropWhile unicode.IsSpace s.data)⟩

end strings

/-! ## Package model -/

namespace model

/-- The `User` entity. -/
structure User where
  ID : Int
  Name : String
  Email : String
  CreatedAt : Nat
  UpdatedAt : Nat
deriving DecidableEq

/-- The character test inside the loop of `IsValidUserName`; `IsLetter` stands
for Go `unicode.IsLetter`, whose table is not part of the repository. -/
def allowedRune (IsLetter : Char → Bool) (r : Char) : Bool :=
  IsLetter r || unicode.IsSpace r || r == '-' || r == Char.ofNat 39

/-- The validator function `IsValidUserName`, on a field of type string (the
zero value is the empty string and the type assertion succeeds). -/
def IsValidUserName (IsLetter : Char → Bool) (s : String) : Bool :=
  if s = "" then true
  else
    let trimmed := strings.TrimSpace s
    if strings.len trimmed < 2 || strings.len trimmed > 50 then false
    else trimmed.data.all (allowedRune IsLetter)

/-- The rule for names in the words of the specification: empty, or between 2
and 50 characters after trimming, each one a letter, a whitespace character, a
hyphen or an apostrophe. -/
def SpecValidUserName (IsLetter : Char → Bool) (s : String) : Prop :=
  s = "" ∨
    (2 ≤ (strings.TrimSpace s).length ∧ (strings.TrimSpace s).length ≤ 50 ∧
      ∀ r ∈ (strings.TrimSpace s).data,
        IsLetter r = true ∨ unicode.IsSpace r = true ∨ r = '-' ∨ r = Char.ofNat 39)

/-- A name of nineteen characters and fifty-three bytes: a hyphen, seventeen
ideographic spaces U+3000 and a hyphen. -/
def wideName : String :=
  ⟨'-' :: (List.replicate 17 (Char.ofNat 0x3000) ++ ['-'])⟩

end model

/-! ## Errors -/

namespace echo

/-- The `HTTPError` of echo: a status code, a message and an optional internal
error, kept as its text. -/
structure HTTPError where
  Code : Nat
  Message : String
  Internal : Option String
deriving DecidableEq

/-- The method `(*HTTPError).Error` of echo v4: the `code=%d, message=%v` format,
with `, internal=%v` appended when there is an internal error. -/
def HTTPError.Error (he : HTTPError) : String :=
  match he.Internal with
  | none => "code=" ++ Nat.repr he.Code ++ ", message=" ++ he.Message
  | some i => "code=" ++ Nat.repr he.Code ++ ", message=" ++ he.Message ++ ", internal=" ++ i

/-- The constructor `echo.NewHTTPError(code, message)`. -/
def NewHTTPError (code : Nat) (message : String) : HTTPError :=
  { Code := code, Message := message, Internal := none }

end echo

/-- A Go `error` value as this program meets it: an error that is just its text
(driver and gorm errors, the validator's `ValidationErrors`), or an echo
`HTTPError`. -/
inductive GoError where
  | text (msg : String)
  | httpError (he : echo.HTTPError)
deriving DecidableEq

/-- The method `Error()` of the error interface. -/
def GoError.Error : GoError → String
  | .text msg => msg
  | .httpError he => he.Error

namespace errors

/-- Modelled from the spec: the error codes of package `internal/errors`, whose
file is not among the sources; the specification names three categories that
the codes tell apart: bad request, not found and internal server error. -/
inductive Code where
  | CodeBadRequest
  | CodeNotFound
  | CodeInternalServerError
deriving DecidableEq

end errors

/-! ## The gorm handle and the relational store behind it -/

namespace gorm

/-- The three statements the repository runs on its `*gorm.DB`, over a store
with states `σ`. `Create` returns the struct as the call leaves it and the
`Error` field; `FindOrdered` is `Order("created_at desc").Find(&users)` on a nil
slice; `First` is `First(&user, id)` on a zero `User`. -/
structure DB (σ : Type) where
  Create : model.User → σ → (model.User × Option GoError) × σ
  FindOrdered : σ → (Option (List model.User) × Option GoError) × σ
  First : Int → σ → (model.User × Option GoError) × σ

/-- The error `gorm.ErrRecordNotFound`. -/
def ErrRecordNotFound : GoError := .text "record not found"

/-- The driver error for an insert that breaks a unique index; the wording is
the driver's and no caller reads it. -/
def ErrUniqueViolation (index : String) : GoError :=
  .text ("duplicate key value violates unique constraint " ++ index)

/-- A reachable relational store holding table `users`: the rows in insertion
order, the last value drawn from the identifier sequence, and the reading of
the clock (`NowFunc`) that the next statement sees. -/
structure Store where
  rows : List model.User
  seq : Nat
  now : Nat
deriving DecidableEq

/-- The order `created_at desc`: `a` may come before `b`. -/
def createdAtDesc (a b : model.User) : Prop := b.CreatedAt ≤ a.CreatedAt

instance createdAtDesc.decidable : DecidableRel createdAtDesc :=
  fun a b => inferInstanceAs (Decidable (b.CreatedAt ≤ a.CreatedAt))

instance createdAtDesc.total : IsTotal model.User createdAtDesc :=
  ⟨fun a b => Nat.le_total b.CreatedAt a.CreatedAt⟩

instance createdAtDesc.trans : IsTrans model.User createdAtDesc :=
  ⟨fun _ _ _ hab hbc => Nat.le_trans hbc hab⟩

/-- The zero value of `model.User`. -/
def zeroUser : model.User :=
  { ID := 0, Name := "", Email := "", CreatedAt := 0, UpdatedAt := 0 }

/-- The statement `INSERT INTO users` as gorm issues it for `db.Create(user)`:
`autoCreateTime` and `autoUpdateTime` fill a zero timestamp with the clock, a
zero `ID` is drawn from the sequence, and the primary key and the unique index
on `email` reject a duplicate. The struct a failed insert leaves behind is
read by no caller and is returned as given. -/
def Store.Create (u : model.User) (st : Store) : (model.User × Option GoError) × Store :=
  let createdAt := if u.CreatedAt = 0 then st.now else u.CreatedAt
  let updatedAt := if u.UpdatedAt = 0 then st.now else u.UpdatedAt
  let seq := if u.ID = 0 then st.seq + 1 else st.seq
  let id : Int := if u.ID = 0 then ((st.seq + 1 : Nat) : Int) else u.ID
  if st.rows.any (fun r => r.ID == id) then
    ((u, some (ErrUniqueViolation "users_pkey")), { st with seq := seq })
  else if st.rows.any (fun r => r.Email == u.Email) then
    ((u, some (ErrUniqueViolation "idx_users_email")), { st with seq := seq })
  else
    let row : model.User :=
      { ID := id, Name := u.Name, Email := u.Email, CreatedAt := createdAt, UpdatedAt := updatedAt }
    ((row, none), { st with rows := st.rows ++ [row], seq := seq })

/-- The query `SELECT * FROM users ORDER BY created_at desc` scanned into a nil
slice: gorm allocates the slice before it scans, so the result is never nil. -/
def Store.FindOrdered (st : Store) : (Option (List model.User) × Option GoError) × Store :=
  ((some (st.rows.insertionSort createdAtDesc), none), st)

/-- The query of `db.First(&user, id)`: the row with that primary key, or
`ErrRecordNotFound` and the struct left at its zero value. -/
def Store.First (id : Int) (st : Store) : (model.User × Option GoError) × Store :=
  match st.rows.find? (fun r => r.ID == id) with
  | some row => ((row, none), st)
  | none => ((zeroUser, some ErrRecordNotFound), st)

/-- The gorm handle on a reachable store. -/
def Open : DB Store :=
  { Create := Store.Create, FindOrdered := Store.FindOrdered, First := Store.First }

end gorm

/-! ## Package repository -/

namespace repository

/-- The interface `UserRepository`. -/
structure UserRepository (σ : Type) where
  Create : model.User → σ → (model.User × Option GoError) × σ
  FindAll : σ → (Option (List model.User) × Option GoError) × σ
  FindByID : Int → σ → (Option model.User × Option GoError) × σ

/-- The method `userRepository.Create`. -/
def userRepository.Create {σ : Type} (db : gorm.DB σ) (user : model.User) (st : σ) :
    (model.User × Option GoError) × σ :=
  db.Create user st

/-- The method `userRepository.FindAll`. -/
def userRepository.FindAll {σ : Type} (db : gorm.DB σ) (st : σ) :
    (Option (List model.User) × Option GoError) × σ :=
  match db.FindOrdered st with
  | ((_, some err), st1) => ((none, some err), st1)
  | ((users, none), st1) => ((users, none), st1)

/-- The method `userRepository.FindByID`. -/
def userRepository.FindByID {σ : Type} (db : gorm.DB σ) (id : Int) (st : σ) :
    (Option model.User × Option GoError) × σ :=
  match db.First id st with
  | ((_, some err), st1) => ((none, some err), st1)
  | ((user, none), st1) => ((some user, none), st1)

/-- The constructor `NewUserRepository`. -/
def NewUserRepository {σ : Type} (db : gorm.DB σ) : UserRepository σ :=
  { Create := userRepository.Create db
    FindAll := userRepository.FindAll db
    FindByID := userRepository.FindByID db }

end repository

/-! ## Package service -/

namespace service

/-- The interface `UserService`. -/
structure UserService (σ : Type) where
  CreateUser : model.User → σ → (model.User × Option GoError) × σ
  ListUsers : σ → (Option (List model.User) × Option GoError) × σ
  GetUserByID : Int → σ → (Option model.User × Option GoError) × σ

/-- The method `userService.CreateUser`. -/
def userService.CreateUser {σ : Type} (repo : repository.UserRepository σ) (user : model.User)
    (st : σ) : (model.User × Option GoError) × σ :=
  repo.Create user st

/-- The method `userService.ListUsers`. -/
def userService.ListUsers {σ : Type} (repo : repository.UserRepository σ) (st : σ) :
    (Option (List model.User) × Option GoError) × σ :=
  repo.FindAll st

/-- The method `userService.GetUserByID`. -/
def userService.GetUserByID {σ : Type} (repo : repository.UserRepository σ) (id : Int) (st : σ) :
    (Option model.User × Option GoError) × σ :=
  repo.FindByID id st

/-- The constructor `NewUserService`. -/
def NewUserService {σ : Type} (repo : repository.UserRepository σ) : UserService σ :=
  { CreateUser := userService.CreateUser repo
    ListUsers := userService.ListUsers repo
    GetUserByID := userService.GetUserByID repo }

end service

/-! ## Package strconv -/

namespace strconv

/-- The two errors of `strconv.Atoi`, `ErrSyntax` and `ErrRange`. -/
inductive NumError where
  | ErrSyntax
  | ErrRange
deriving DecidableEq

/-- The value of a run of decimal digits, accumulated as `n = n*10 + int(ch - '0')`. -/
def digitsValue (ds : List Char) : Nat :=
  ds.foldl (fun n ch => n * 10 + (ch.toNat - 48)) 0

/-- Go `strconv.Atoi` with a 64-bit `int`: an optional sign, then at least one
digit and nothing but the digits `0` to `9`; a value outside the range of `int`
is `ErrRange`. -/
def Atoi (s : String) : Except NumError Int :=
  let neg := s.data.head? == some '-'
  let ds := if s.data.head? == some '-' || s.data.head? == some '+' then s.data.tail else s.data
  if ds.isEmpty then .error .ErrSyntax
  else if !ds.all Char.isDigit then .error .ErrSyntax
  else
    let un := digitsValue ds
    if !neg && un ≥ 2 ^ 63 then .error .ErrRange
    else if neg && un > 2 ^ 63 then .error .ErrRange
    else .ok (if neg then -(un : Int) else (un : Int))

end strconv

/-! ## The field validator -/

namespace validator

/-- The validation tags this program uses: the built-in `required` and `email`
and the registered `validUserName`. -/
inductive Tag where
  | required
  | validUserName
  | email
deriving DecidableEq

/-- The name of a tag as it is written in a struct tag. -/
def Tag.name : Tag → String
  | .required => "required"
  | .validUserName => "validUserName"
  | .email => "email"

/-- Whether a string field passes a tag: `required` rejects the zero value,
`validUserName` runs the function registered by `NewCustomValidator`, `email`
runs the validator's address pattern `IsEmail`, which is not part of the
repository. -/
def Tag.holds (IsLetter : Char → Bool) (IsEmail : String → Bool) : Tag → String → Bool
  | .required, v => decide (v ≠ "")
  | .validUserName, v => model.IsValidUserName IsLetter v
  | .email, v => IsEmail v

/-- The validator's `FieldError`: the namespace of the field, its name and the
tag that failed. -/
structure FieldError where
  ns : String
  field : String
  tag : String
deriving DecidableEq

/-- The method `fieldError.Error`. -/
def FieldError.Error (fe : FieldError) : String :=
  "Key: '" ++ fe.ns ++ "' Error:Field validation for '" ++ fe.field ++
    "' failed on the '" ++ fe.tag ++ "' tag"

/-- The tags of one field are run in order and the first that fails is
reported. -/
def checkField (IsLetter : Char → Bool) (IsEmail : String → Bool) (ns field : String)
    (tags : List Tag) (v : String) : List FieldError :=
  match tags.find? (fun t => !t.holds IsLetter IsEmail v) with
  | some t => [{ ns := ns, field := field, tag := t.name }]
  | none => []

/-- The method `ValidationErrors.Error`: one line per field error, the whole
trimmed. -/
def ValidationErrors.Error (ve : List FieldError) : String :=
  strings.TrimSpace (String.join (ve.map fun fe => fe.Error ++ "\n"))

end validator

/-! ## Package controller -/

namespace controller

/-- The struct `UserCreateRequest`. -/
structure UserCreateRequest where
  Name : String
  Email : String
deriving DecidableEq

/-- The body of a create request as echo's binder meets it: one that `Bind`
rejects with an error, or a JSON object whose keys `name` and `email` may be
absent. -/
inductive CreateBody where
  | malformed (err : GoError)
  | object (name email : Option String)
deriving DecidableEq

/-- The call `c.Bind(&req)` on a zero `UserCreateRequest`: an absent key leaves
its field at the zero value. -/
def Bind : CreateBody → UserCreateRequest × Option GoError
  | .malformed err => ({ Name := "", Email := "" }, some err)
  | .object name email => ({ Name := name.getD "", Email := email.getD "" }, none)

/-- The method `CustomValidator.Validate` on a `UserCreateRequest`, whose fields
carry the tags `required,validUserName` and `required,email`. -/
def CustomValidator.Validate (IsLetter : Char → Bool) (IsEmail : String → Bool)
    (req : UserCreateRequest) : Option GoError :=
  let ve :=
    validator.checkField IsLetter IsEmail "UserCreateRequest.Name" "Name"
        [.required, .validUserName] req.Name ++
      validator.checkField IsLetter IsEmail "UserCreateRequest.Email" "Email"
        [.required, .email] req.Email
  if ve.isEmpty then none else some (.text (validator.ValidationErrors.Error ve))

/-- The method `Handler.MustBind`. -/
def Handler.MustBind (IsLetter : Char → Bool) (IsEmail : String → Bool) (body : CreateBody) :
    UserCreateRequest × Option GoError :=
  match Bind body with
  | (req, some err) => (req, some err)
  | (req, none) =>
    match CustomValidator.Validate IsLetter IsEmail req with
    | some err => (req, some (.httpError (echo.NewHTTPError 400 err.Error)))
    | none => (req, none)

/-- Modelled from the spec: the struct `Error` of the error envelope, whose file
is not among the sources: a code and a human-readable message. -/
structure Error where
  Code : errors.Code
  Message : String
deriving DecidableEq

/-- The value a handler stores in `ResponseData.Data`: a `*model.User` or a
`[]model.User`, whose nil slice (`none`) is written as JSON `null`. -/
inductive Payload where
  | user (u : model.User)
  | users (us : Option (List model.User))
deriving DecidableEq

/-- Modelled from the spec: the two envelopes, whose file is not among the
sources: `ResponseData` wraps the payload under `data`, `ResponseError` wraps a
list of errors under `errors`. -/
inductive Envelope where
  | ResponseData (Data : Payload)
  | ResponseError (Errors : List Error)
deriving DecidableEq

/-- What a handler passes to `c.JSON`: the status and the envelope. -/
structure Response where
  status : Nat
  body : Envelope
deriving DecidableEq

/-- The method `userHandler.CreateUser`. -/
def userHandler.CreateUser {σ : Type} (IsLetter : Char → Bool) (IsEmail : String → Bool)
    (s : service.UserService σ) (body : CreateBody) (st : σ) : Response × σ :=
  match Handler.MustBind IsLetter IsEmail body with
  | (_, some err) =>
    ({ status := 400,
       body := .ResponseError [{ Code := .CodeBadRequest, Message := err.Error }] }, st)
  | (req, none) =>
    let u : model.User :=
      { ID := 0, Name := req.Name, Email := req.Email, CreatedAt := 0, UpdatedAt := 0 }
    match s.CreateUser u st with
    | ((_, some err), st1) =>
      ({ status := 500,
         body := .ResponseError [{ Code := .CodeInternalServerError, Message := err.Error }] },
        st1)
    | ((u1, none), st1) => ({ status := 201, body := .ResponseData (.user u1) }, st1)

/-- The method `userHandler.ListUsers`. -/
def userHandler.ListUsers {σ : Type} (s : service.UserService σ) (st : σ) : Response × σ :=
  match s.ListUsers st with
  | ((_, some err), st1) =>
    ({ status := 500,
       body := .ResponseError [{ Code := .CodeInternalServerError, Message := err.Error }] },
      st1)
  | ((users, none), st1) => ({ status := 200, body := .ResponseData (.users users) }, st1)

/-- The method `userHandler.GetUserByID`, on the path parameter `id`. -/
def userHandler.GetUserByID {σ : Type} (s : service.UserService σ) (idStr : String) (st : σ) :
    Response × σ :=
  match strconv.Atoi idStr with
  | .error _ =>
    ({ status := 400,
       body := .ResponseError [{ Code := .CodeBadRequest, Message := "invalid id" }] }, st)
  | .ok id =>
    if id ≤ 0 then
      ({ status := 400,
         body := .ResponseError [{ Code := .CodeBadRequest, Message := "invalid id" }] }, st)
    else
      match s.GetUserByID id st with
      | ((_, some err), st1) =>
        ({ status := 500,
           body := .ResponseError [{ Code := .CodeInternalServerError, Message := err.Error }] },
          st1)
      | ((none, none), st1) =>
        ({ status := 404,
           body := .ResponseError [{ Code := .CodeNotFound, Message := "user not found" }] }, st1)
      | ((some user, none), st1) => ({ status := 200, body := .ResponseData (.user user) }, st1)

/-- The handler as the server wires it: repository, then service, on a gorm
handle. -/
def wired {σ : Type} (db : gorm.DB σ) : service.UserService σ :=
  service.NewUserService (repository.NewUserRepository db)

/-- A call of a method of the service. -/
inductive Call where
  | CreateUser (u : model.User)
  | ListUsers
  | GetUserByID (id : Int)
deriving DecidableEq

/-- A service that does nothing but record each call made to it. -/
def recorder : service.UserService (List Call) :=
  { CreateUser := fun u log => ((u, none), log ++ [.CreateUser u])
    ListUsers := fun log => ((some [], none), log ++ [.ListUsers])
    GetUserByID := fun id log => ((none, none), log ++ [.GetUserByID id]) }

/-- A run of create requests, each served at its own reading of the clock:
the responses in order and the store they leave. -/
def serveCreates (IsLetter : Char → Bool) (IsEmail : String → Bool) :
    List (Nat × CreateBody) → gorm.Store → List Response × gorm.Store
  | [], st => ([], st)
  | (t, body) :: rest, st =>
    let out := userHandler.CreateUser IsLetter IsEmail (wired gorm.Open) body { st with now := t }
    let tail := serveCreates IsLetter IsEmail rest out.2
    (out.1 :: tail.1, tail.2)

/-- The user a response carries when it is a data envelope around one user. -/
def Response.user? (r : Response) : Option model.User :=
  match r.body with
  | .ResponseData (.user u) => some u
  | _ => none

/-- The error the binding and validation engines produce for a body, if any:
the error of `Bind`, or else the error of `Validate` on the bound request. -/
def engineError (IsLetter : Char → Bool) (IsEmail : String → Bool) (body : CreateBody) :
    Option GoError :=
  match Bind body with
  | (_, some err) => some err
  | (req, none) => CustomValidator.Validate IsLetter IsEmail req

/-- The message of the single error of an error envelope. -/
def Response.message? (r : Response) : Option String :=
  match r.body with
  | .ResponseError [e] => some e.Message
  | _ => none

end controller

/-! ## Tables for evaluating the code on concrete requests

The theorems below hold for every letter table and every address pattern. To
run the code on a concrete request, the two are instantiated with tables that
agree with the libraries on the inputs used. -/

namespace sample

/-- The letter table on ASCII, where `unicode.IsLetter` accepts exactly the
letters `A` to `Z` and `a` to `z`. -/
def IsLetter (r : Char) : Bool := r.isAlpha

/-- A coarse address pattern: a non-empty local part, one `@`, and a domain
with a dot in it. -/
def IsEmail (s : String) : Bool :=
  match s.data.span (fun c => c != '@') with
  | (loc, _ :: dom) => !loc.isEmpty && !dom.contains '@' && dom.contains '.'
  | (_, []) => false

/-- An empty store whose clock reads 1000. -/
def emptyStore : gorm.Store := { rows := [], seq := 0, now := 1000 }

/-- The create request of the tests for Alice. -/
def alice : controller.CreateBody := .object (some "Alice") (some "alice@example.com")

/-- The create request of the tests for Bob. -/
def bob : controller.CreateBody := .object (some "Bob") (some "bob@example.com")

/-- The handler `CreateUser` on the sample tables and a reachable store. -/
def create (body : controller.CreateBody) (st : gorm.Store) : controller.Response × gorm.Store :=
  controller.userHandler.CreateUser IsLetter IsEmail (controller.wired gorm.Open) body st

end sample

/-! ## The name rule -/

/-- C1 (counterexample): the name made of a hyphen, seventeen ideographic
spaces and a hyphen has nineteen characters, all of them allowed, so the rule
as the claim words it (length counted in characters) accepts it; the code
measures its fifty-three bytes and rejects it, whatever the letter table. -/
theorem model.IsValidUserName_wideName :
    (∀ IsLetter : Char → Bool, model.IsValidUserName IsLetter model.wideName = false) ∧
    (∀ IsLetter : Char → Bool, model.SpecValidUserName IsLetter model.wideName) := by
  constructor
  · intro IsLetter
    have hne : model.wideName ≠ "" := by decide
    have hlen : strings.len (strings.TrimSpace model.wideName) = 53 := by decide
    simp [model.IsValidUserName, hne, hlen]
  · intro IsLetter
    refine Or.inr ⟨by decide, by decide, ?_⟩
    intro r hr
    have h : ∀ c ∈ (strings.TrimSpace model.wideName).data,
        unicode.IsSpace c = true ∨ c = '-' := by decide
    rcases h r hr with h1 | h1
    · exact Or.inr (Or.inl h1)
    · exact Or.inr (Or.inr (Or.inl h1))

/-- C1 (amended): `IsValidUserName` accepts a string exactly when it is empty,
or its trimmed value is between 2 and 50 bytes long in UTF-8 and each of its
characters is a letter, a whitespace character, a hyphen or an apostrophe. -/
theorem model.IsValidUserName_iff (IsLetter : Char → Bool) (s : String) :
    model.IsValidUserName IsLetter s = true ↔
      s = "" ∨
        (2 ≤ strings.len (strings.TrimSpace s) ∧ strings.len (strings.TrimSpace s) ≤ 50 ∧
          ∀ r ∈ (strings.TrimSpace s).data,
            IsLetter r = true ∨ unicode.IsSpace r = true ∨ r = '-' ∨ r = Char.ofNat 39) := by
  unfold model.IsValidUserName
  by_cases hs : s = ""
  · simp [hs]
  · simp only [hs, if_false, false_or]
    by_cases hlen : strings.len (strings.TrimSpace s) < 2 ∨ strings.len (strings.TrimSpace s) > 50
    · have hb : (decide (strings.len (strings.TrimSpace s) < 2) ||
          decide (strings.len (strings.TrimSpace s) > 50)) = true := by
        simpa using hlen
      rw [if_pos hb]
      constructor
      · intro h; cases h
      · rintro ⟨h2, h50, _⟩
        omega
    · have hb : ¬ (decide (strings.len (strings.TrimSpace s) < 2) ||
          decide (strings.len (strings.TrimSpace s) > 50)) = true := by
        simpa using hlen
      rw [if_neg hb]
      have h2 : 2 ≤ strings.len (strings.TrimSpace s) := by omega
      have h50 : strings.len (strings.TrimSpace s) ≤ 50 := by omega
      simp only [List.all_eq_true, model.allowedRune, Bool.or_eq_true, beq_iff_eq, h2, h50,
        true_and, or_assoc]

/-! ## Validation -/

/-- A request passes `Validate` exactly when both fields are non-empty, the name
passes `IsValidUserName` and the email passes the address pattern. -/
theorem controller.Validate_eq_none_iff (IsLetter : Char → Bool) (IsEmail : String → Bool)
    (req : controller.UserCreateRequest) :
    controller.CustomValidator.Validate IsLetter IsEmail req = none ↔
      req.Name ≠ "" ∧ model.IsValidUserName IsLetter req.Name = true ∧
        req.Email ≠ "" ∧ IsEmail req.Email = true := by
  unfold controller.CustomValidator.Validate validator.checkField
  by_cases hn : req.Name = "" <;> by_cases he : req.Email = "" <;>
    cases hv : model.IsValidUserName IsLetter req.Name <;>
    cases hm : IsEmail req.Email <;>
    simp [List.find?, validator.Tag.holds, hn, he, hv, hm]

/-- When `Bind` succeeds and `Validate` does not, `MustBind` returns the
validation error wrapped in an `HTTPError` with status 400. -/
theorem controller.MustBind_of_invalid (IsLetter : Char → Bool) (IsEmail : String → Bool)
    (name email : Option String) (verr : GoError)
    (h : controller.CustomValidator.Validate IsLetter IsEmail
      { Name := name.getD "", Email := email.getD "" } = some verr) :
    controller.Handler.MustBind IsLetter IsEmail (.object name email) =
      ({ Name := name.getD "", Email := email.getD "" },
        some (.httpError (echo.NewHTTPError 400 verr.Error))) := by
  simp [controller.Handler.MustBind, controller.Bind, h]

/-- When `Bind` and `Validate` both succeed, `MustBind` returns the bound
request and no error. -/
theorem controller.MustBind_of_valid (IsLetter : Char → Bool) (IsEmail : String → Bool)
    (name email : Option String)
    (h : controller.CustomValidator.Validate IsLetter IsEmail
      { Name := name.getD "", Email := email.getD "" } = none) :
    controller.Handler.MustBind IsLetter IsEmail (.object name email) =
      ({ Name := name.getD "", Email := email.getD "" }, none) := by
  simp [controller.Handler.MustBind, controller.Bind, h]

/-- A non-empty name made only of whitespace fails `IsValidUserName`. -/
theorem model.IsValidUserName_whitespace (IsLetter : Char → Bool) (s : String) (hs : s ≠ "")
    (hw : ∀ c ∈ s.data, unicode.IsSpace c = true) :
    model.IsValidUserName IsLetter s = false := by
  have hdrop : List.dropWhile unicode.IsSpace s.data = [] := by
    rw [List.dropWhile_eq_nil_iff]
    exact hw
  have hlen : strings.len (strings.TrimSpace s) = 0 := by
    simp [strings.len, strings.TrimSpace, hdrop, List.rdropWhile]
  simp [model.IsValidUserName, hs, hlen]

/-! ## Get by id -/

/-- C2 (the code at the claim's input): for a path parameter that parses to a
positive id held by no row of a reachable store, `FindByID` returns the error
`record not found` of `First`, not an absent user without error, and the
handler answers 500 with the internal-server-error code, not 404. -/
theorem controller.GetUserByID_missing_row (st : gorm.Store) (idStr : String) (id : Int)
    (hparse : strconv.Atoi idStr = .ok id) (hpos : 0 < id)
    (hmiss : ∀ r ∈ st.rows, r.ID ≠ id) :
    repository.userRepository.FindByID gorm.Open id st =
        ((none, some gorm.ErrRecordNotFound), st) ∧
      controller.userHandler.GetUserByID (controller.wired gorm.Open) idStr st =
        ({ status := 500,
           body := .ResponseError
             [{ Code := .CodeInternalServerError, Message := "record not found" }] }, st) := by
  have hfind : st.rows.find? (fun r => r.ID == id) = none := by
    rw [List.find?_eq_none]
    intro r hr
    simpa using hmiss r hr
  have hrepo : repository.userRepository.FindByID gorm.Open id st =
      ((none, some gorm.ErrRecordNotFound), st) := by
    simp [repository.userRepository.FindByID, gorm.Open, gorm.Store.First, hfind]
  refine ⟨hrepo, ?_⟩
  have hle : ¬ id ≤ 0 := by omega
  simp [controller.userHandler.GetUserByID, hparse, hle, controller.wired,
    service.NewUserService, service.userService.GetUserByID, repository.NewUserRepository,
    hrepo, gorm.ErrRecordNotFound, GoError.Error]

/-- C2 (failing input): `GET /users/999999` on an empty store. -/
theorem controller.GetUserByID_missing_row_999999 :
    repository.userRepository.FindByID gorm.Open 999999 sample.emptyStore =
        ((none, some gorm.ErrRecordNotFound), sample.emptyStore) ∧
      controller.userHandler.GetUserByID (controller.wired gorm.Open) "999999"
          sample.emptyStore =
        ({ status := 500,
           body := .ResponseError
             [{ Code := .CodeInternalServerError, Message := "record not found" }] },
          sample.emptyStore) :=
  controller.GetUserByID_missing_row sample.emptyStore "999999" 999999 (by rfl) (by decide)
    (by decide)

/-- C5: `GetUserByID` answers 400 with the bad-request code and the message
`invalid id` exactly when `Atoi` rejects the path parameter or yields a value
that is not positive; in that case the answer and the untouched state are the
same for every service, so the service is not called (the recording service
records nothing). -/
theorem controller.GetUserByID_invalid_id_iff {σ : Type} (s : service.UserService σ)
    (idStr : String) (st : σ) :
    ((controller.userHandler.GetUserByID s idStr st).1 =
        { status := 400,
          body := .ResponseError [{ Code := .CodeBadRequest, Message := "invalid id" }] } ↔
      ∀ id, strconv.Atoi idStr = .ok id → id ≤ 0) ∧
    ((∀ id, strconv.Atoi idStr = .ok id → id ≤ 0) →
      controller.userHandler.GetUserByID s idStr st =
        ({ status := 400,
           body := .ResponseError [{ Code := .CodeBadRequest, Message := "invalid id" }] }, st) ∧
      (controller.userHandler.GetUserByID controller.recorder idStr []).2 = []) := by
  unfold controller.userHandler.GetUserByID
  cases hparse : strconv.Atoi idStr with
  | error e => simp
  | ok id =>
    by_cases hle : id ≤ 0
    · simp [hle]
    · have hno : ¬ ∀ id1, (Except.ok id : Except strconv.NumError Int) = Except.ok id1 → id1 ≤ 0 :=
        fun h => hle (h id rfl)
      simp only [hle, if_false, hno, iff_false, false_implies, and_true]
      rcases hcall : s.GetUserByID id st with ⟨⟨u, e⟩, st1⟩
      cases e with
      | some err => simp
      | none => cases u <;> simp

/-! ## Create: rejected requests -/

/-- C3: when the name is missing or empty, or the email is missing or empty, or
the email fails the address pattern, or the name fails `IsValidUserName` (as a
non-empty name made only of whitespace does), `CreateUser` answers 400 with
the bad-request code; the answer and the untouched state are the same for
every service, so `CreateUser` of the service is not called (the recording
service records nothing). -/
theorem controller.CreateUser_invalid_payload (IsLetter : Char → Bool) (IsEmail : String → Bool)
    (name email : Option String)
    (h : name = none ∨ name = some "" ∨ email = none ∨ email = some "" ∨
      (∃ e, email = some e ∧ IsEmail e = false) ∨
      (∃ n, name = some n ∧ model.IsValidUserName IsLetter n = false) ∨
      (∃ n, name = some n ∧ n ≠ "" ∧ ∀ c ∈ n.data, unicode.IsSpace c = true)) :
    (∃ msg, ∀ (σ : Type) (s : service.UserService σ) (st : σ),
      controller.userHandler.CreateUser IsLetter IsEmail s (.object name email) st =
        ({ status := 400,
           body := .ResponseError [{ Code := .CodeBadRequest, Message := msg }] }, st)) ∧
    (controller.userHandler.CreateUser IsLetter IsEmail controller.recorder
      (.object name email) []).2 = [] := by
  have hinv : controller.CustomValidator.Validate IsLetter IsEmail
      { Name := name.getD "", Email := email.getD "" } ≠ none := by
    rw [Ne, controller.Validate_eq_none_iff]
    rintro ⟨hn, hv, he, hm⟩
    rcases h with h | h | h | h | ⟨e, h, hf⟩ | ⟨n, h, hf⟩ | ⟨n, h, hne, hw⟩ <;> subst h
    · exact hn rfl
    · exact hn rfl
    · exact he rfl
    · exact he rfl
    · simp [hf] at hm
    · simp [hf] at hv
    · simp [model.IsValidUserName_whitespace IsLetter n hne hw] at hv
  obtain ⟨verr, hverr⟩ := Option.ne_none_iff_exists'.mp hinv
  have hbind := controller.MustBind_of_invalid IsLetter IsEmail name email verr hverr
  refine ⟨⟨(GoError.httpError (echo.NewHTTPError 400 verr.Error)).Error, ?_⟩, ?_⟩
  · intro σ s st
    simp [controller.userHandler.CreateUser, hbind]
  · simp [controller.userHandler.CreateUser, hbind]

/-- C3 (witness): a name of three spaces with a well-formed email. -/
theorem controller.CreateUser_invalid_payload_spaces :
    (∃ msg, ∀ (σ : Type) (s : service.UserService σ) (st : σ),
      controller.userHandler.CreateUser sample.IsLetter sample.IsEmail s
          (.object (some "   ") (some "alice@example.com")) st =
        ({ status := 400,
           body := .ResponseError [{ Code := .CodeBadRequest, Message := msg }] }, st)) ∧
    (controller.userHandler.CreateUser sample.IsLetter sample.IsEmail controller.recorder
      (.object (some "   ") (some "alice@example.com")) []).2 = [] :=
  controller.CreateUser_invalid_payload sample.IsLetter sample.IsEmail (some "   ")
    (some "alice@example.com")
    (Or.inr (Or.inr (Or.inr (Or.inr (Or.inr (Or.inr ⟨"   ", rfl, by decide, by decide⟩))))))

/-- C6 (counterexample): for the request with name `Alice` and no email the
validation engine produces the text `Key: ... failed on the 'required' tag`;
the message of the 400 response is that text behind `code=400, message=`. -/
theorem controller.CreateUser_message_not_verbatim :
    controller.engineError sample.IsLetter sample.IsEmail (.object (some "Alice") none) =
      some (.text ("Key: 'UserCreateRequest.Email' Error:Field validation for 'Email' " ++
        "failed on the 'required' tag")) ∧
    (sample.create (.object (some "Alice") none) sample.emptyStore).1 =
      { status := 400,
        body := .ResponseError
          [{ Code := .CodeBadRequest,
             Message := "code=400, message=Key: 'UserCreateRequest.Email' Error:Field " ++
               "validation for 'Email' failed on the 'required' tag" }] } ∧
    (sample.create (.object (some "Alice") none) sample.emptyStore).1.message? ≠
      (controller.engineError sample.IsLetter sample.IsEmail
        (.object (some "Alice") none)).map GoError.Error := by
  decide

/-- C6 (amended): when `Bind` rejects the body, the message of the 400 response
is the text of the binder's error, unchanged; when `Validate` rejects the bound
request, the message is the text of the validator's error behind the text
`code=400, message=`, which comes from the `HTTPError` that `MustBind` wraps it
in. -/
theorem controller.CreateUser_rejection_message {σ : Type} (IsLetter : Char → Bool)
    (IsEmail : String → Bool) (s : service.UserService σ) (body : controller.CreateBody)
    (st : σ) :
    (∀ err, (controller.Bind body).2 = some err →
      controller.userHandler.CreateUser IsLetter IsEmail s body st =
        ({ status := 400,
           body := .ResponseError [{ Code := .CodeBadRequest, Message := err.Error }] }, st)) ∧
    (∀ verr, (controller.Bind body).2 = none →
      controller.CustomValidator.Validate IsLetter IsEmail (controller.Bind body).1 = some verr →
      controller.userHandler.CreateUser IsLetter IsEmail s body st =
        ({ status := 400,
           body := .ResponseError
             [{ Code := .CodeBadRequest, Message := "code=400, message=" ++ verr.Error }] },
          st)) := by
  have h400 : Nat.repr 400 = "400" := by decide
  cases body with
  | malformed e =>
    simp [controller.userHandler.CreateUser, controller.Handler.MustBind, controller.Bind]
  | object name email =>
    refine ⟨fun err h => by simp [controller.Bind] at h, fun verr _ hv => ?_⟩
    have hbind := controller.MustBind_of_invalid IsLetter IsEmail name email verr hv
    simp [controller.userHandler.CreateUser, hbind, GoError.Error, echo.HTTPError.Error,
      echo.NewHTTPError, h400]

/-- C6 (witness): the request with name `Alice` and no email, rejected by
validation, on any service. -/
theorem controller.CreateUser_rejection_message_no_email :
    controller.userHandler.CreateUser sample.IsLetter sample.IsEmail controller.recorder
        (.object (some "Alice") none) [] =
      ({ status := 400,
         body := .ResponseError
           [{ Code := .CodeBadRequest,
              Message := "code=400, message=" ++
                (GoError.text ("Key: 'UserCreateRequest.Email' Error:Field validation for " ++
                  "'Email' failed on the 'required' tag")).Error }] }, []) :=
  (controller.CreateUser_rejection_message sample.IsLetter sample.IsEmail controller.recorder
    (.object (some "Alice") none) []).2 _ (by decide) (by decide)

/-! ## Persistence errors -/

/-- C7: for every repository, whenever its operation fails with an error `e`,
the service returns what the repository returned, `e` included, and the
handler answers 500 with one error whose code is the internal-server-error
code and whose message is the text of `e`: for `CreateUser` after `MustBind`
succeeded, for `ListUsers`, and for `GetUserByID` after a positive id. -/
theorem controller.persistence_error_surfaces {σ : Type} (IsLetter : Char → Bool)
    (IsEmail : String → Bool) (repo : repository.UserRepository σ) (st st1 : σ) (e : GoError) :
    (∀ body req u, controller.Handler.MustBind IsLetter IsEmail body = (req, none) →
      repo.Create { ID := 0, Name := req.Name, Email := req.Email, CreatedAt := 0,
                    UpdatedAt := 0 } st = ((u, some e), st1) →
      (service.NewUserService repo).CreateUser
          { ID := 0, Name := req.Name, Email := req.Email, CreatedAt := 0, UpdatedAt := 0 } st =
        ((u, some e), st1) ∧
      controller.userHandler.CreateUser IsLetter IsEmail (service.NewUserService repo) body st =
        ({ status := 500,
           body := .ResponseError
             [{ Code := .CodeInternalServerError, Message := e.Error }] }, st1)) ∧
    (∀ us, repo.FindAll st = ((us, some e), st1) →
      (service.NewUserService repo).ListUsers st = ((us, some e), st1) ∧
      controller.userHandler.ListUsers (service.NewUserService repo) st =
        ({ status := 500,
           body := .ResponseError
             [{ Code := .CodeInternalServerError, Message := e.Error }] }, st1)) ∧
    (∀ idStr id u, strconv.Atoi idStr = .ok id → 0 < id →
      repo.FindByID id st = ((u, some e), st1) →
      (service.NewUserService repo).GetUserByID id st = ((u, some e), st1) ∧
      controller.userHandler.GetUserByID (service.NewUserService repo) idStr st =
        ({ status := 500,
           body := .ResponseError
             [{ Code := .CodeInternalServerError, Message := e.Error }] }, st1)) := by
  refine ⟨?_, ?_, ?_⟩
  · intro body req u hbind hrepo
    simp [controller.userHandler.CreateUser, hbind, service.NewUserService,
      service.userService.CreateUser, hrepo]
  · intro us hrepo
    simp [controller.userHandler.ListUsers, service.NewUserService,
      service.userService.ListUsers, hrepo]
  · intro idStr id u hparse hpos hrepo
    have hle : ¬ id ≤ 0 := by omega
    simp [controller.userHandler.GetUserByID, hparse, hle, service.NewUserService,
      service.userService.GetUserByID, hrepo]

/-- C7 (witness): creating Alice a second time on a reachable store; the insert
breaks the unique index on `email`. -/
theorem controller.persistence_error_surfaces_duplicate :
    (service.NewUserService (repository.NewUserRepository gorm.Open)).CreateUser
        { ID := 0, Name := "Alice", Email := "alice@example.com", CreatedAt := 0,
          UpdatedAt := 0 } (sample.create sample.alice sample.emptyStore).2 =
      (({ ID := 0, Name := "Alice", Email := "alice@example.com", CreatedAt := 0,
          UpdatedAt := 0 }, some (gorm.ErrUniqueViolation "idx_users_email")),
        { rows := [{ ID := 1, Name := "Alice", Email := "alice@example.com",
                     CreatedAt := 1000, UpdatedAt := 1000 }], seq := 2, now := 1000 }) ∧
    controller.userHandler.CreateUser sample.IsLetter sample.IsEmail
        (service.NewUserService (repository.NewUserRepository gorm.Open)) sample.alice
        (sample.create sample.alice sample.emptyStore).2 =
      ({ status := 500,
         body := .ResponseError
           [{ Code := .CodeInternalServerError,
              Message := (gorm.ErrUniqueViolation "idx_users_email").Error }] },
        { rows := [{ ID := 1, Name := "Alice", Email := "alice@example.com",
                     CreatedAt := 1000, UpdatedAt := 1000 }], seq := 2, now := 1000 }) :=
  (controller.persistence_error_surfaces sample.IsLetter sample.IsEmail
    (repository.NewUserRepository gorm.Open) (sample.create sample.alice sample.emptyStore).2
    { rows := [{ ID := 1, Name := "Alice", Email := "alice@example.com",
                 CreatedAt := 1000, UpdatedAt := 1000 }], seq := 2, now := 1000 }
    (gorm.ErrUniqueViolation "idx_users_email")).1 sample.alice
    { Name := "Alice", Email := "alice@example.com" }
    { ID := 0, Name := "Alice", Email := "alice@example.com", CreatedAt := 0, UpdatedAt := 0 }
    (by decide) (by decide)

/-! ## Create: accepted requests -/

/-- The insert of a user with zero id and zero timestamps on a store where the
next sequence value and the email are both unused: the row gets the next
sequence value and the reading of the clock, and is appended. -/
theorem gorm.Store.Create_accepts (name email : String) (st : gorm.Store)
    (hid : ∀ r ∈ st.rows, r.ID ≠ ((st.seq + 1 : Nat) : Int))
    (hemail : ∀ r ∈ st.rows, r.Email ≠ email) :
    gorm.Store.Create { ID := 0, Name := name, Email := email, CreatedAt := 0, UpdatedAt := 0 }
        st =
      (({ ID := ((st.seq + 1 : Nat) : Int), Name := name, Email := email, CreatedAt := st.now,
          UpdatedAt := st.now }, none),
        { rows := st.rows ++ [{ ID := ((st.seq + 1 : Nat) : Int), Name := name, Email := email,
                                CreatedAt := st.now, UpdatedAt := st.now }],
          seq := st.seq + 1, now := st.now }) := by
  have h1 : (st.rows.any fun r => r.ID == ((st.seq + 1 : Nat) : Int)) = false := by
    rw [List.any_eq_false]
    intro r hr
    simpa using hid r hr
  have h2 : (st.rows.any fun r => r.Email == email) = false := by
    rw [List.any_eq_false]
    intro r hr
    simpa using hemail r hr
  simp only [gorm.Store.Create, if_true, h1, h2]
  simp

/-- An insert of a user with zero id and zero timestamps that returns no error
has appended the returned row, whose id is the next sequence value, held by no
earlier row, and whose timestamps are the reading of the clock. -/
theorem gorm.Store.Create_inv (name email : String) (st st1 : gorm.Store) (u1 : model.User)
    (h : gorm.Store.Create
      { ID := 0, Name := name, Email := email, CreatedAt := 0, UpdatedAt := 0 } st =
        ((u1, none), st1)) :
    u1 = { ID := ((st.seq + 1 : Nat) : Int), Name := name, Email := email, CreatedAt := st.now,
           UpdatedAt := st.now } ∧
      st1 = { rows := st.rows ++ [u1], seq := st.seq + 1, now := st.now } ∧
      ∀ r ∈ st.rows, r.ID ≠ u1.ID := by
  by_cases h1 : (st.rows.any fun r => r.ID == ((st.seq + 1 : Nat) : Int)) = true
  · simp only [gorm.Store.Create, if_true, h1] at h
    simp at h
  · by_cases h2 : (st.rows.any fun r => r.Email == email) = true
    · simp only [gorm.Store.Create, if_true, h1, h2, if_false] at h
      simp at h
    · simp only [gorm.Store.Create, if_true, h1, h2, if_false, Prod.mk.injEq, and_true,
        Bool.false_eq_true] at h
      obtain ⟨hu, hst⟩ := h
      subst hu
      refine ⟨rfl, hst.symm, ?_⟩
      intro r hr
      simp only [Bool.not_eq_true, List.any_eq_false, beq_iff_eq] at h1
      exact h1 r hr

/-- The handler on a reachable store, for a body that answers 201: the response
carries a user that the store has appended and whose id no earlier row holds. -/
theorem controller.CreateUser_created (IsLetter : Char → Bool) (IsEmail : String → Bool)
    (body : controller.CreateBody) (st : gorm.Store)
    (h : (controller.userHandler.CreateUser IsLetter IsEmail (controller.wired gorm.Open) body
      st).1.status = 201) :
    ∃ u, controller.userHandler.CreateUser IsLetter IsEmail (controller.wired gorm.Open) body st =
        ({ status := 201, body := .ResponseData (.user u) },
          { rows := st.rows ++ [u], seq := st.seq + 1, now := st.now }) ∧
      (∀ r ∈ st.rows, r.ID ≠ u.ID) ∧
      u = { ID := ((st.seq + 1 : Nat) : Int), Name := (controller.Bind body).1.Name,
            Email := (controller.Bind body).1.Email, CreatedAt := st.now,
            UpdatedAt := st.now } := by
  unfold controller.userHandler.CreateUser at h ⊢
  rcases hb : controller.Handler.MustBind IsLetter IsEmail body with ⟨req, err⟩
  have hreq : req = (controller.Bind body).1 := by
    unfold controller.Handler.MustBind at hb
    rcases hbind : controller.Bind body with ⟨req0, err0⟩
    rw [hbind] at hb
    cases err0 with
    | some e0 => simp at hb; exact hb.1.symm
    | none =>
      cases hv : controller.CustomValidator.Validate IsLetter IsEmail req0 <;>
        simp [hv] at hb <;> exact hb.1.symm
  rw [hb] at h
  cases err with
  | some e => simp at h
  | none =>
    simp only [controller.wired, service.NewUserService, service.userService.CreateUser,
      repository.NewUserRepository, repository.userRepository.Create, gorm.Open] at h ⊢
    rcases hc : gorm.Store.Create
      { ID := 0, Name := req.Name, Email := req.Email, CreatedAt := 0, UpdatedAt := 0 } st
      with ⟨⟨u1, e1⟩, st1⟩
    rw [hc] at h
    cases e1 with
    | some e => simp at h
    | none =>
      obtain ⟨hu, hst, hfresh⟩ := gorm.Store.Create_inv req.Name req.Email st st1 u1 hc
      refine ⟨u1, ?_, hfresh, ?_⟩
      · simp [hst]
      · rw [hu, hreq]

/-- C4 (counterexample): the request of the tests for Alice satisfies the
validation rules and is answered 201 on the empty store; sent again, the same
valid request is answered 500, because the email is already stored. -/
theorem controller.CreateUser_valid_payload_duplicate :
    (("Alice" ≠ "" ∧ model.IsValidUserName sample.IsLetter "Alice" = true) ∧
      ("alice@example.com" ≠ "" ∧ sample.IsEmail "alice@example.com" = true)) ∧
    (sample.create sample.alice sample.emptyStore).1 =
      { status := 201,
        body := .ResponseData (.user
          { ID := 1, Name := "Alice", Email := "alice@example.com", CreatedAt := 1000,
            UpdatedAt := 1000 }) } ∧
    (sample.create sample.alice (sample.create sample.alice sample.emptyStore).2).1 =
      { status := 500,
        body := .ResponseError
          [{ Code := .CodeInternalServerError,
             Message := (gorm.ErrUniqueViolation "idx_users_email").Error }] } := by
  decide

/-- C4 (amended): for a payload whose name and email satisfy the validation
rules and whose email no stored user has, on a reachable store whose stored ids
were all drawn from the sequence and whose clock is not at the zero time,
`CreateUser` answers 201 with a data envelope around the created user: its name
and email are the request's, its id is the next value of the sequence, hence
positive, its timestamps are not zero, and it is the row the store has
appended. -/
theorem controller.CreateUser_valid_payload (IsLetter : Char → Bool) (IsEmail : String → Bool)
    (name email : String) (st : gorm.Store)
    (hname : name ≠ "") (hvalid : model.IsValidUserName IsLetter name = true)
    (hemail : email ≠ "") (hpattern : IsEmail email = true)
    (hfree : ∀ r ∈ st.rows, r.Email ≠ email)
    (hseq : ∀ r ∈ st.rows, r.ID ≤ (st.seq : Int))
    (hclock : st.now ≠ 0) :
    ∃ u, controller.userHandler.CreateUser IsLetter IsEmail (controller.wired gorm.Open)
          (.object (some name) (some email)) st =
        ({ status := 201, body := .ResponseData (.user u) },
          { rows := st.rows ++ [u], seq := st.seq + 1, now := st.now }) ∧
      u.Name = name ∧ u.Email = email ∧ u.ID = (st.seq : Int) + 1 ∧ 0 < u.ID ∧
      u.CreatedAt ≠ 0 ∧ u.UpdatedAt ≠ 0 := by
  have hv : controller.CustomValidator.Validate IsLetter IsEmail
      { Name := (some name).getD "", Email := (some email).getD "" } = none := by
    rw [controller.Validate_eq_none_iff]
    exact ⟨hname, hvalid, hemail, hpattern⟩
  have hbind := controller.MustBind_of_valid IsLetter IsEmail (some name) (some email) hv
  have hid : ∀ r ∈ st.rows, r.ID ≠ ((st.seq + 1 : Nat) : Int) := by
    intro r hr
    have := hseq r hr
    push_cast
    omega
  have hc := gorm.Store.Create_accepts name email st hid hfree
  refine ⟨{ ID := ((st.seq + 1 : Nat) : Int), Name := name, Email := email, CreatedAt := st.now,
            UpdatedAt := st.now }, ?_, rfl, rfl, ?_, ?_, hclock, hclock⟩
  · simp only [Option.getD_some] at hbind
    simp [controller.userHandler.CreateUser, hbind, controller.wired, service.NewUserService,
      service.userService.CreateUser, repository.NewUserRepository,
      repository.userRepository.Create, gorm.Open, hc]
  · push_cast
    rfl
  · push_cast
    omega

/-- C4 (witness): Bob on the store that already holds Alice. -/
theorem controller.CreateUser_valid_payload_bob :
    ∃ u, controller.userHandler.CreateUser sample.IsLetter sample.IsEmail
          (controller.wired gorm.Open) (.object (some "Bob") (some "bob@example.com"))
          (sample.create sample.alice sample.emptyStore).2 =
        ({ status := 201, body := .ResponseData (.user u) },
          { rows := (sample.create sample.alice sample.emptyStore).2.rows ++ [u],
            seq := (sample.create sample.alice sample.emptyStore).2.seq + 1,
            now := (sample.create sample.alice sample.emptyStore).2.now }) ∧
      u.Name = "Bob" ∧ u.Email = "bob@example.com" ∧
      u.ID = ((sample.create sample.alice sample.emptyStore).2.seq : Int) + 1 ∧ 0 < u.ID ∧
      u.CreatedAt ≠ 0 ∧ u.UpdatedAt ≠ 0 :=
  controller.CreateUser_valid_payload sample.IsLetter sample.IsEmail "Bob" "bob@example.com"
    (sample.create sample.alice sample.emptyStore).2 (by decide) (by decide) (by decide)
    (by decide) (by decide) (by decide) (by decide)

/-- C10: for a create request that passes `MustBind`, both keys are present
and the user handed to the service has exactly the name and email of the
request, with no trimming, and a zero id and zero timestamps (the recording
service records that one call); on a reachable store, when the request is
answered 201 the appended row carries that same untrimmed name and email. -/
theorem controller.CreateUser_hands_fields_untrimmed (IsLetter : Char → Bool)
    (IsEmail : String → Bool) (body : controller.CreateBody)
    (hpass : (controller.Handler.MustBind IsLetter IsEmail body).2 = none) :
    ∃ name email, body = .object (some name) (some email) ∧
      (controller.userHandler.CreateUser IsLetter IsEmail controller.recorder body []).2 =
        [.CreateUser { ID := 0, Name := name, Email := email, CreatedAt := 0, UpdatedAt := 0 }] ∧
      ∀ st : gorm.Store,
        (controller.userHandler.CreateUser IsLetter IsEmail (controller.wired gorm.Open) body
          st).1.status = 201 →
        ∃ row, (controller.userHandler.CreateUser IsLetter IsEmail (controller.wired gorm.Open)
            body st).2.rows = st.rows ++ [row] ∧ row.Name = name ∧ row.Email = email := by
  cases body with
  | malformed e => simp [controller.Handler.MustBind, controller.Bind] at hpass
  | object name email =>
    cases hv : controller.CustomValidator.Validate IsLetter IsEmail
        { Name := name.getD "", Email := email.getD "" } with
    | some verr =>
      rw [controller.MustBind_of_invalid IsLetter IsEmail name email verr hv] at hpass
      simp at hpass
    | none =>
      have hbind := controller.MustBind_of_valid IsLetter IsEmail name email hv
      obtain ⟨hn, _, he, _⟩ := (controller.Validate_eq_none_iff IsLetter IsEmail _).mp hv
      cases name with
      | none => exact absurd rfl hn
      | some n =>
        cases email with
        | none => exact absurd rfl he
        | some m =>
          refine ⟨n, m, rfl, ?_, ?_⟩
          · simp only [Option.getD_some] at hbind
            simp [controller.userHandler.CreateUser, hbind, controller.recorder]
          · intro st h201
            obtain ⟨u, hout, _, hu⟩ :=
              controller.CreateUser_created IsLetter IsEmail _ st h201
            refine ⟨u, ?_, ?_, ?_⟩
            · rw [hout]
            · rw [hu]; rfl
            · rw [hu]; rfl

/-- C10 (witness): the name ` Al `, with a space on each side, passes validation
and is handed on and stored with its spaces. -/
theorem controller.CreateUser_hands_fields_untrimmed_spaces :
    ∃ name email,
      controller.CreateBody.object (some " Al ") (some "al@example.com") =
        .object (some name) (some email) ∧
      (controller.userHandler.CreateUser sample.IsLetter sample.IsEmail controller.recorder
          (.object (some " Al ") (some "al@example.com")) []).2 =
        [.CreateUser { ID := 0, Name := name, Email := email, CreatedAt := 0, UpdatedAt := 0 }] ∧
      ∀ st : gorm.Store,
        (controller.userHandler.CreateUser sample.IsLetter sample.IsEmail
          (controller.wired gorm.Open) (.object (some " Al ") (some "al@example.com"))
          st).1.status = 201 →
        ∃ row, (controller.userHandler.CreateUser sample.IsLetter sample.IsEmail
            (controller.wired gorm.Open) (.object (some " Al ") (some "al@example.com"))
            st).2.rows = st.rows ++ [row] ∧ row.Name = name ∧ row.Email = email :=
  controller.CreateUser_hands_fields_untrimmed sample.IsLetter sample.IsEmail
    (.object (some " Al ") (some "al@example.com")) (by decide)

/-! ## List -/

/-- C8: on a reachable store that holds no user, `FindAll` returns an empty,
non-nil list and no error, and `ListUsers` answers 200 with a data envelope
whose payload is that empty list. -/
theorem controller.ListUsers_empty_store (st : gorm.Store) (h : st.rows = []) :
    repository.userRepository.FindAll gorm.Open st = ((some [], none), st) ∧
      controller.userHandler.ListUsers (controller.wired gorm.Open) st =
        ({ status := 200, body := .ResponseData (.users (some [])) }, st) := by
  have hrepo : repository.userRepository.FindAll gorm.Open st = ((some [], none), st) := by
    simp [repository.userRepository.FindAll, gorm.Open, gorm.Store.FindOrdered, h]
  refine ⟨hrepo, ?_⟩
  simp [controller.userHandler.ListUsers, controller.wired, service.NewUserService,
    service.userService.ListUsers, repository.NewUserRepository, hrepo]

/-- C8 (witness): the empty store of the samples. -/
theorem controller.ListUsers_empty_store_sample :
    repository.userRepository.FindAll gorm.Open sample.emptyStore =
        ((some [], none), sample.emptyStore) ∧
      controller.userHandler.ListUsers (controller.wired gorm.Open) sample.emptyStore =
        ({ status := 200, body := .ResponseData (.users (some [])) }, sample.emptyStore) :=
  controller.ListUsers_empty_store sample.emptyStore rfl

/-- On a reachable store `ListUsers` answers 200 with the rows in the order
`created_at desc`. -/
theorem controller.ListUsers_wired (st : gorm.Store) :
    controller.userHandler.ListUsers (controller.wired gorm.Open) st =
      ({ status := 200,
         body := .ResponseData (.users (some (st.rows.insertionSort gorm.createdAtDesc))) },
        st) := by
  simp [controller.userHandler.ListUsers, controller.wired, service.NewUserService,
    service.userService.ListUsers, repository.NewUserRepository,
    repository.userRepository.FindAll, gorm.Open, gorm.Store.FindOrdered]

/-- An insert that returns an error leaves the rows as they were. -/
theorem gorm.Store.Create_rows_of_error (u : model.User) (st : gorm.Store) (e : GoError)
    (h : (gorm.Store.Create u st).1.2 = some e) : (gorm.Store.Create u st).2.rows = st.rows := by
  by_cases h1 : (st.rows.any fun r =>
      r.ID == (if u.ID = 0 then ((st.seq + 1 : Nat) : Int) else u.ID)) = true
  · simp only [gorm.Store.Create, h1, if_true]
  · by_cases h2 : (st.rows.any fun r => r.Email == u.Email) = true
    · simp only [gorm.Store.Create, h1, h2, if_true, if_false, Bool.false_eq_true]
    · simp only [gorm.Store.Create, h1, h2, if_false, Bool.false_eq_true] at h
      simp at h

/-- The handler on a reachable store, for a body that is not answered 201: the
response carries no user and the rows are as they were. -/
theorem controller.CreateUser_not_created (IsLetter : Char → Bool) (IsEmail : String → Bool)
    (body : controller.CreateBody) (st : gorm.Store)
    (h : (controller.userHandler.CreateUser IsLetter IsEmail (controller.wired gorm.Open) body
      st).1.status ≠ 201) :
    (controller.userHandler.CreateUser IsLetter IsEmail (controller.wired gorm.Open) body
        st).1.user? = none ∧
      (controller.userHandler.CreateUser IsLetter IsEmail (controller.wired gorm.Open) body
        st).2.rows = st.rows := by
  unfold controller.userHandler.CreateUser at h ⊢
  rcases hb : controller.Handler.MustBind IsLetter IsEmail body with ⟨req, err⟩
  rw [hb] at h
  cases err with
  | some e => simp [controller.Response.user?]
  | none =>
    simp only [controller.wired, service.NewUserService, service.userService.CreateUser,
      repository.NewUserRepository, repository.userRepository.Create, gorm.Open] at h ⊢
    have hrows := gorm.Store.Create_rows_of_error
      { ID := 0, Name := req.Name, Email := req.Email, CreatedAt := 0, UpdatedAt := 0 } st
    rcases hc : gorm.Store.Create
      { ID := 0, Name := req.Name, Email := req.Email, CreatedAt := 0, UpdatedAt := 0 } st
      with ⟨⟨u1, e1⟩, st1⟩
    rw [hc] at h hrows
    cases e1 with
    | some e => exact ⟨by simp [controller.Response.user?], hrows e rfl⟩
    | none => simp at h

/-- A run of create requests appends, in order, the users that the responses
carry, one for each response with status 201, and keeps the stored ids
distinct. -/
theorem controller.serveCreates_rows (IsLetter : Char → Bool) (IsEmail : String → Bool) :
    ∀ (reqs : List (Nat × controller.CreateBody)) (st : gorm.Store),
      (controller.serveCreates IsLetter IsEmail reqs st).2.rows =
          st.rows ++ (controller.serveCreates IsLetter IsEmail reqs st).1.filterMap
            controller.Response.user? ∧
        ((controller.serveCreates IsLetter IsEmail reqs st).1.filterMap
            controller.Response.user?).length =
          ((controller.serveCreates IsLetter IsEmail reqs st).1.filter
            fun r => r.status == 201).length ∧
        ((st.rows.map fun u => u.ID).Nodup →
          ((controller.serveCreates IsLetter IsEmail reqs st).2.rows.map fun u => u.ID).Nodup)
  | [], st => by simp [controller.serveCreates]
  | (t, body) :: rest, st => by
    by_cases h201 : (controller.userHandler.CreateUser IsLetter IsEmail
        (controller.wired gorm.Open) body { st with now := t }).1.status = 201
    · obtain ⟨u, hout, hfresh, _⟩ :=
        controller.CreateUser_created IsLetter IsEmail body { st with now := t } h201
      obtain ⟨hrows, hlen, hnodup⟩ := controller.serveCreates_rows IsLetter IsEmail rest
        { rows := st.rows ++ [u], seq := st.seq + 1, now := t }
      simp only [controller.serveCreates, hout]
      refine ⟨?_, ?_, ?_⟩
      · rw [hrows]
        simp [controller.Response.user?]
      · simp [controller.Response.user?, hlen]
      · intro hnd
        apply hnodup
        rw [List.map_append, List.nodup_append]
        refine ⟨hnd, by simp, ?_⟩
        intro a ha hb
        simp only [List.map_cons, List.map_nil, List.mem_singleton] at hb
        obtain ⟨r, hr, hra⟩ := List.mem_map.mp ha
        exact hfresh r hr (hra.trans hb)
    · obtain ⟨huser, hkeep⟩ :=
        controller.CreateUser_not_created IsLetter IsEmail body { st with now := t } h201
      obtain ⟨hrows, hlen, hnodup⟩ := controller.serveCreates_rows IsLetter IsEmail rest
        (controller.userHandler.CreateUser IsLetter IsEmail (controller.wired gorm.Open) body
          { st with now := t }).2
      simp only [controller.serveCreates]
      refine ⟨?_, ?_, ?_⟩
      · rw [hrows, hkeep]
        simp [huser]
      · simp [huser, hlen, h201]
      · intro hnd
        apply hnodup
        rw [hkeep]
        exact hnd

/-- C9: after a run of create requests on an initially empty reachable store,
`ListUsers` answers 200 with a list that has one entry for each request that
was answered 201, is a rearrangement of the created users (the users the 201
responses carried), has no entry twice, and is in descending order of
`created_at`: every entry's `created_at` is at least that of every later
entry, the adjacent one included. -/
theorem controller.ListUsers_after_creates (IsLetter : Char → Bool) (IsEmail : String → Bool)
    (reqs : List (Nat × controller.CreateBody)) (st : gorm.Store) (hempty : st.rows = []) :
    ∃ us, controller.userHandler.ListUsers (controller.wired gorm.Open)
          (controller.serveCreates IsLetter IsEmail reqs st).2 =
        ({ status := 200, body := .ResponseData (.users (some us)) },
          (controller.serveCreates IsLetter IsEmail reqs st).2) ∧
      us.length = ((controller.serveCreates IsLetter IsEmail reqs st).1.filter
        fun r => r.status == 201).length ∧
      us.Perm ((controller.serveCreates IsLetter IsEmail reqs st).1.filterMap
        controller.Response.user?) ∧
      us.Nodup ∧
      us.Pairwise (fun a b => b.CreatedAt ≤ a.CreatedAt) ∧
      us.Chain' (fun a b => b.CreatedAt ≤ a.CreatedAt) := by
  obtain ⟨hrows, hlen, hnodup⟩ := controller.serveCreates_rows IsLetter IsEmail reqs st
  rw [hempty, List.nil_append] at hrows
  have hperm := List.perm_insertionSort gorm.createdAtDesc
    (controller.serveCreates IsLetter IsEmail reqs st).2.rows
  have hsorted : ((controller.serveCreates IsLetter IsEmail reqs st).2.rows.insertionSort
      gorm.createdAtDesc).Pairwise (fun a b => b.CreatedAt ≤ a.CreatedAt) :=
    List.sorted_insertionSort gorm.createdAtDesc _
  refine ⟨_, controller.ListUsers_wired _, ?_, ?_, ?_, hsorted, hsorted.chain'⟩
  · rw [hperm.length_eq, hrows, hlen]
  · rw [← hrows]
    exact hperm
  · have hids := hnodup (by simp [hempty])
    exact hperm.nodup_iff.mpr (List.Nodup.of_map _ hids)

/-- C9 (witness): Alice at time 1000, Alice again at time 1500 (refused), then
Bob at time 2000, on the empty store: two creations succeed. -/
theorem controller.ListUsers_after_creates_alice_bob :
    ∃ us, controller.userHandler.ListUsers (controller.wired gorm.Open)
          (controller.serveCreates sample.IsLetter sample.IsEmail
            [(1000, sample.alice), (1500, sample.alice), (2000, sample.bob)]
            sample.emptyStore).2 =
        ({ status := 200, body := .ResponseData (.users (some us)) },
          (controller.serveCreates sample.IsLetter sample.IsEmail
            [(1000, sample.alice), (1500, sample.alice), (2000, sample.bob)]
            sample.emptyStore).2) ∧
      us.length = ((controller.serveCreates sample.IsLetter sample.IsEmail
        [(1000, sample.alice), (1500, sample.alice), (2000, sample.bob)]
        sample.emptyStore).1.filter fun r => r.status == 201).length ∧
      us.Perm ((controller.serveCreates sample.IsLetter sample.IsEmail
        [(1000, sample.alice), (1500, sample.alice), (2000, sample.bob)]
        sample.emptyStore).1.filterMap controller.Response.user?) ∧
      us.Nodup ∧
      us.Pairwise (fun a b => b.CreatedAt ≤ a.CreatedAt) ∧
      us.Chain' (fun a b => b.CreatedAt ≤ a.CreatedAt) :=
  controller.ListUsers_after_creates sample.IsLetter sample.IsEmail
    [(1000, sample.alice), (1500, sample.alice), (2000, sample.bob)] sample.emptyStore rfl
